import Mathlib

/-!
Verification of the noise XX handshake orchestrator (`src/handshake.ts`).

The orchestrator class `Handshake` (propose / exchange / finish / encrypt /
decrypt / getCS) is embedded faithfully from the source.  Its collaborators
(`xx.ts`, `utils.ts`, the wrapped connection) are repository modules that are
not part of the provided sources, so they are modelled from the spec
(sections 4.1-4.4, 6), with small executable stand-ins for the external
cryptographic primitives (hash, Diffie-Hellman, signatures, AEAD), which the
spec treats as black boxes.
-/

namespace Noise

/-- Byte strings are modelled as lists of naturals. -/
abbrev Bytes := List Nat

/-- A static or ephemeral key pair (spec section 3). -/
structure KeyPair where
  privateKey : Bytes
  publicKey : Bytes
deriving DecidableEq, Repr

/-- Modelled from the spec: error kinds of section 7.  `HandshakeIncomplete`
is the error thrown by `getCS` when a cipher state is missing;
`ConnectionEnded` stands for a framed read on an exhausted stream. -/
inductive NoiseError where
  | HandshakeIncomplete
  | AuthenticationFailure
  | SignatureVerificationFailure
  | MalformedMessage
  | InvalidStage
  | ConnectionEnded
deriving DecidableEq, Repr

/-- One length-framed transport operation (`writeLP` / `readLP`). -/
inductive WireOp where
  | write (frame : Bytes)
  | read (frame : Bytes)
deriving DecidableEq, Repr

/-- The connection is modelled by its queue of pending incoming frames. -/
abbrev Conn := List Bytes

/-! ## External cryptographic primitives (spec section 6)

Executable stand-ins for the black-box collaborators.  Their only properties
used below are determinism, the AEAD round trip, the symmetry of `dh`, and
that `sigVerify` accepts exactly the signatures `sigSign` makes for the
matching key pair. -/

/-- Stand-in for the hash primitive: injective tagging. -/
def hashL (data : Bytes) : Bytes := 1 :: data

/-- Stand-in key derivation: two outputs from chaining key and input material. -/
def hkdf (ck ikm : Bytes) : Bytes × Bytes :=
  (2 :: (ck ++ ikm), 3 :: (ck ++ ikm))

/-- Public key derived from a private key in the toy curve model. -/
def pubOf (sk : Bytes) : Bytes := 9 :: sk

/-- Lexicographic comparison used to make the toy `dh` symmetric. -/
def lexLe : Bytes → Bytes → Bool
  | [], _ => true
  | _ :: _, [] => false
  | a :: as, b :: bs => if a < b then true else if b < a then false else lexLe as bs

/-- Stand-in Diffie-Hellman: symmetric in the two public keys, so that
dh a.privateKey b.publicKey = dh b.privateKey a.publicKey. -/
def dh (sk pk : Bytes) : Bytes :=
  let m := pubOf sk
  0 :: (if lexLe m pk then m ++ pk else pk ++ m)

/-- Stand-in signature primitive. -/
def sigSign (sk msg : Bytes) : Bytes := 4 :: (pubOf sk ++ msg)

/-- Stand-in signature verification: accepts exactly what the matching
private key signs over the same message. -/
def sigVerify (pk msg sig : Bytes) : Bool := sig = 4 :: (pk ++ msg)

/-- Authentication tag of the toy AEAD. -/
def aeadTag (k : Bytes) (n : Nat) (ad pt : Bytes) : Nat :=
  k.sum + n + ad.sum + pt.sum + pt.length

/-- Toy AEAD encryption: plaintext followed by one tag element. -/
def aeadEnc (k : Bytes) (n : Nat) (ad pt : Bytes) : Bytes :=
  pt ++ [aeadTag k n ad pt]

/-- Toy AEAD decryption: checks the trailing tag, returns the plaintext. -/
def aeadDec (k : Bytes) (n : Nat) (ad ct : Bytes) : Option Bytes :=
  match ct.getLast? with
  | none => none
  | some t =>
    let pt := ct.dropLast
    if t = aeadTag k n ad pt then some pt else none

/-! ## Payload codec (`utils.ts`, modelled from spec section 4.4) -/

/-- Length-framed chunk used by the model serializers. -/
def padLen (b : Bytes) : Bytes := b.length :: b

/-- Reads one length-framed chunk back off a byte string. -/
def readChunk (b : Bytes) : Option (Bytes × Bytes) :=
  match b with
  | [] => none
  | n :: rest => if n ≤ rest.length then some (rest.take n, rest.drop n) else none

/-- The application-level handshake payload (spec section 3). -/
structure HandshakePayload where
  identityPublicKey : Bytes
  identitySignature : Bytes
  earlyData : Option Bytes
deriving DecidableEq, Repr

/-- Modelled from the spec: fixed domain-separation bytes prepended to the
static key before signing (section 4.4). -/
def domainSep : Bytes := [110, 115]

/-- Modelled from the spec: `getHandshakePayload` of `utils.ts` builds the
message to sign, the domain-separated encoding of the static public key. -/
def getHandshakePayload (pk : Bytes) : Bytes := domainSep ++ pk

/-- Modelled from the spec: `signPayload` of `utils.ts` signs the prepared
message with the given private key via the external signature primitive. -/
def signPayload (sk msg : Bytes) : Bytes := sigSign sk msg

/-- Modelled from the spec: `createHandshakePayload` of `utils.ts` serializes
the fixed schema identity key, signature, optional early data. -/
def createHandshakePayload (identityPublicKey signature : Bytes)
    (earlyData : Option Bytes) : Bytes :=
  padLen identityPublicKey ++ padLen signature ++
    (match earlyData with
     | none => [0]
     | some d => 1 :: padLen d)

/-- Modelled from the spec: parses a serialized handshake payload back. -/
def parseHandshakePayload (b : Bytes) : Option HandshakePayload :=
  match readChunk b with
  | none => none
  | some (ik, r1) =>
    match readChunk r1 with
    | none => none
    | some (sg, r2) =>
      match r2 with
      | [0] => some ⟨ik, sg, none⟩
      | 1 :: r3 =>
        match readChunk r3 with
        | some (d, []) => some ⟨ik, sg, some d⟩
        | _ => none
      | _ => none

/-- Modelled from the spec: `verifyPayload` recomputes the expected signed
message from the embedded identity key and checks the embedded signature
against that key (section 4.4). -/
def verifyPayload (hp : HandshakePayload) : Bool :=
  sigVerify hp.identityPublicKey (getHandshakePayload hp.identityPublicKey)
    hp.identitySignature

/-! ## Wire message codec (`utils.ts`, layout from spec section 6) -/

/-- Wire representation of one handshake stage (spec section 3). -/
structure MessageBuffer where
  ephemeralPublicKey : Bytes
  encryptedStaticPublicKey : Bytes
  ciphertext : Bytes
deriving DecidableEq, Repr

/-- Modelled from the spec: serializes a message buffer field by field. -/
def encodeMessageBuffer (mb : MessageBuffer) : Bytes :=
  padLen mb.ephemeralPublicKey ++ padLen mb.encryptedStaticPublicKey ++
    padLen mb.ciphertext

/-- Modelled from the spec: parses a message buffer, failing on malformed
input. -/
def decodeMessageBuffer (b : Bytes) : Option MessageBuffer :=
  match readChunk b with
  | none => none
  | some (ne, r1) =>
    match readChunk r1 with
    | none => none
    | some (es, r2) =>
      match readChunk r2 with
      | some (ct, []) => some ⟨ne, es, ct⟩
      | _ => none

/-! ## Symmetric and handshake state (`xx.ts`, modelled from spec 4.1-4.3) -/

/-- A cipher state: optional symmetric key plus nonce counter.  The key is
`none` only before the first `mixKey` of a handshake (spec section 4.2). -/
structure CipherState where
  k : Option Bytes
  n : Nat
deriving DecidableEq, Repr

/-- Symmetric state: cipher state, chaining key, transcript hash. -/
structure SymmetricState where
  cs : CipherState
  ck : Bytes
  h : Bytes
deriving DecidableEq, Repr

/-- Handshake-scoped key state: symmetric state, local static and ephemeral
pairs, remote static and ephemeral public keys. -/
structure HandshakeState where
  ss : SymmetricState
  s : KeyPair
  e : Option KeyPair
  rs : Bytes
  re : Bytes
deriving DecidableEq, Repr

/-- The session created by `initSession` and threaded through the stages;
`cs1`/`cs2` are populated only by the split at the end of stage 2. -/
structure NoiseSession where
  hs : HandshakeState
  isInitiator : Bool
  mc : Nat
  cs1 : Option CipherState
  cs2 : Option CipherState
deriving DecidableEq, Repr

/-- Modelled from the spec: mixHash folds data into the transcript hash. -/
def mixHash (ss : SymmetricState) (data : Bytes) : SymmetricState :=
  { ss with h := hashL (ss.h ++ data) }

/-- Modelled from the spec: mixKey derives a fresh chaining key and cipher
key and resets the nonce. -/
def mixKey (ss : SymmetricState) (ikm : Bytes) : SymmetricState :=
  let kp := hkdf ss.ck ikm
  { ss with ck := kp.1, cs := { k := some kp.2, n := 0 } }

/-- Modelled from the spec: encryptAndHash encrypts under the current key
with the transcript hash as associated data (pass-through before the first
key), then mixes the ciphertext into the hash. -/
def encryptAndHash (ss : SymmetricState) (plaintext : Bytes) :
    SymmetricState × Bytes :=
  match ss.cs.k with
  | none => (mixHash ss plaintext, plaintext)
  | some k =>
    let ct := aeadEnc k ss.cs.n ss.h plaintext
    let ss1 := mixHash ss ct
    ({ ss1 with cs := { k := some k, n := ss.cs.n + 1 } }, ct)

/-- Modelled from the spec: decryptAndHash is the mirror of encryptAndHash,
failing with an authentication error on a bad tag. -/
def decryptAndHash (ss : SymmetricState) (ciphertext : Bytes) :
    Except NoiseError (SymmetricState × Bytes) :=
  match ss.cs.k with
  | none => .ok (mixHash ss ciphertext, ciphertext)
  | some k =>
    match aeadDec k ss.cs.n ss.h ciphertext with
    | none => .error .AuthenticationFailure
    | some pt =>
      let ss1 := mixHash ss ciphertext
      .ok ({ ss1 with cs := { k := some k, n := ss.cs.n + 1 } }, pt)

/-- Modelled from the spec: split derives the two directional transport
cipher states from the final chaining key. -/
def ssSplit (ss : SymmetricState) : CipherState × CipherState :=
  let kp := hkdf ss.ck []
  ({ k := some kp.1, n := 0 }, { k := some kp.2, n := 0 })

/-- Stand-in protocol name bytes mixed at initialization. -/
def protoName : Bytes := [78, 88, 88]

/-- Deterministic stand-in for ephemeral key generation. -/
def genEphemeral : KeyPair := { privateKey := [7], publicKey := pubOf [7] }

/-- Modelled from the spec: `initSession` of `xx.ts` initializes the
symmetric state from the protocol name and prologue and stores the static
keys and the remote static key hint. -/
def xxInitSession (isInitiator : Bool) (prologue : Bytes) (s : KeyPair)
    (rs : Bytes) : NoiseSession :=
  let h0 := hashL protoName
  let cs0 : CipherState := { k := none, n := 0 }
  let ss0 : SymmetricState := { cs := cs0, ck := h0, h := hashL (h0 ++ prologue) }
  let hs0 : HandshakeState := { ss := ss0, s := s, e := none, rs := rs, re := [] }
  { hs := hs0, isInitiator := isInitiator, mc := 0, cs1 := none, cs2 := none }

/-- Modelled from the spec: `sendMessage` of `xx.ts`, the write half of the
XX pattern driver, dispatching on the message counter.  Stage 0 sends the
ephemeral key and the pass-through payload; stage 1 performs the e, ee, s,
es tokens; stage 2 performs s, se and splits. -/
def xxSendMessage (sess : NoiseSession) (payload : Bytes) :
    Except NoiseError (NoiseSession × MessageBuffer) :=
  match sess.mc with
  | 0 =>
    let e := genEphemeral
    let ss0 := mixHash sess.hs.ss e.publicKey
    let r := encryptAndHash ss0 payload
    let hs1 := { sess.hs with ss := r.1, e := some e }
    let sess1 := { sess with hs := hs1, mc := 1 }
    let mb : MessageBuffer :=
      ⟨e.publicKey, [], r.2⟩
    .ok (sess1, mb)
  | 1 =>
    let e := genEphemeral
    let ss0 := mixHash sess.hs.ss e.publicKey
    let ss1 := mixKey ss0 (dh e.privateKey sess.hs.re)
    let r1 := encryptAndHash ss1 sess.hs.s.publicKey
    let ss2 := mixKey r1.1 (dh sess.hs.s.privateKey sess.hs.re)
    let r2 := encryptAndHash ss2 payload
    let hs1 := { sess.hs with ss := r2.1, e := some e }
    let sess1 := { sess with hs := hs1, mc := 2 }
    let mb : MessageBuffer :=
      ⟨e.publicKey, r1.2, r2.2⟩
    .ok (sess1, mb)
  | 2 =>
    let r1 := encryptAndHash sess.hs.ss sess.hs.s.publicKey
    let ss1 := mixKey r1.1 (dh sess.hs.s.privateKey sess.hs.re)
    let r2 := encryptAndHash ss1 payload
    let cs := ssSplit r2.1
    let hs1 := { sess.hs with ss := r2.1 }
    let sess1 := { sess with hs := hs1, mc := 3, cs1 := some cs.1, cs2 := some cs.2 }
    let mb : MessageBuffer :=
      ⟨[], r1.2, r2.2⟩
    .ok (sess1, mb)
  | _ => .error .InvalidStage

/-- Modelled from the spec: `recvMessage` of `xx.ts`, the read half of the
XX pattern driver, mirroring `xxSendMessage` stage by stage and returning
the decrypted handshake payload. -/
def xxRecvMessage (sess : NoiseSession) (mb : MessageBuffer) :
    Except NoiseError (NoiseSession × Bytes) :=
  match sess.mc with
  | 0 =>
    let ss0 := mixHash sess.hs.ss mb.ephemeralPublicKey
    match decryptAndHash ss0 mb.ciphertext with
    | .error er => .error er
    | .ok (ss1, pt) =>
      let hs1 := { sess.hs with ss := ss1, re := mb.ephemeralPublicKey }
      .ok ({ sess with hs := hs1, mc := 1 }, pt)
  | 1 =>
    match sess.hs.e with
    | none => .error .InvalidStage
    | some e =>
      let ss0 := mixHash sess.hs.ss mb.ephemeralPublicKey
      let ss1 := mixKey ss0 (dh e.privateKey mb.ephemeralPublicKey)
      match decryptAndHash ss1 mb.encryptedStaticPublicKey with
      | .error er => .error er
      | .ok (ss2, rs) =>
        let ss3 := mixKey ss2 (dh e.privateKey rs)
        match decryptAndHash ss3 mb.ciphertext with
        | .error er => .error er
        | .ok (ss4, pt) =>
          let hs1 := { sess.hs with ss := ss4, re := mb.ephemeralPublicKey, rs := rs }
          .ok ({ sess with hs := hs1, mc := 2 }, pt)
  | 2 =>
    match sess.hs.e with
    | none => .error .InvalidStage
    | some e =>
      match decryptAndHash sess.hs.ss mb.encryptedStaticPublicKey with
      | .error er => .error er
      | .ok (ss1, rs) =>
        let ss2 := mixKey ss1 (dh e.privateKey rs)
        match decryptAndHash ss2 mb.ciphertext with
        | .error er => .error er
        | .ok (ss3, pt) =>
          let cs := ssSplit ss3
          let hs1 := { sess.hs with ss := ss3, rs := rs }
          .ok ({ sess with hs := hs1, mc := 3, cs1 := some cs.1, cs2 := some cs.2 }, pt)
  | _ => .error .InvalidStage

/-- Modelled from the spec: `encryptWithAd` of `xx.ts` (spec section 4.1),
AEAD under the current key and nonce, then the nonce increments. -/
def encryptWithAd (cs : CipherState) (ad plaintext : Bytes) :
    CipherState × Bytes :=
  match cs.k with
  | none => ({ cs with n := cs.n + 1 }, plaintext)
  | some k => ({ cs with n := cs.n + 1 }, aeadEnc k cs.n ad plaintext)

/-- Modelled from the spec: `decryptWithAd` of `xx.ts` (spec section 4.1),
failing with an authentication error when the tag does not verify. -/
def decryptWithAd (cs : CipherState) (ad ciphertext : Bytes) :
    Except NoiseError (CipherState × Bytes) :=
  match cs.k with
  | none => .ok ({ cs with n := cs.n + 1 }, ciphertext)
  | some k =>
    match aeadDec k cs.n ad ciphertext with
    | none => .error .AuthenticationFailure
    | some pt => .ok ({ cs with n := cs.n + 1 }, pt)

/-! ## The handshake orchestrator, embedded from `src/handshake.ts`

Methods are embedded with explicit state passing: each takes the `Handshake`
record (the class fields set by the constructor) and the connection's queue
of pending frames, and returns an `Outcome` carrying the result or error,
the remaining queue, the list of transport operations performed, and the
`Handshake` record as it stands after the call (source methods never assign
to `this`, so every path returns it unchanged). -/

/-- The `handshakeType` of the source, whose only value is XX. -/
inductive HandshakeType where
  | XX
deriving DecidableEq, Repr

/-- The fields of the `Handshake` class set by its constructor. -/
structure Handshake where
  type : HandshakeType
  isInitiator : Bool
  remotePublicKey : Bytes
  prologue : Bytes
  staticKeys : KeyPair
deriving DecidableEq, Repr

/-- Equality of `Except` values is decidable when it is on both sides. -/
instance {ε α : Type} [DecidableEq ε] [DecidableEq α] :
    DecidableEq (Except ε α) := fun x y =>
  match x, y with
  | .ok a, .ok b => if h : a = b then .isTrue (by rw [h]) else .isFalse (by simp [h])
  | .error a, .error b => if h : a = b then .isTrue (by rw [h]) else .isFalse (by simp [h])
  | .ok _, .error _ => .isFalse (by simp)
  | .error _, .ok _ => .isFalse (by simp)

/-- Result of running one method: outcome or error, remaining input queue,
transport operations performed, and the post-call `Handshake` fields. -/
structure Outcome (α : Type) where
  result : Except NoiseError α
  conn : Conn
  trace : List WireOp
  hs : Handshake
deriving DecidableEq, Repr

/-- Stage 0 (`Handshake.propose`): creates the session; the initiator signs
its payload, runs message 0 and writes it; the responder reads one frame and
runs the receive side.  The decrypted stage-0 plaintext is discarded, as in
the source. -/
def Handshake.propose (h : Handshake) (conn : Conn) (earlyData : Option Bytes) :
    Outcome NoiseSession :=
  let sess := xxInitSession h.isInitiator h.prologue h.staticKeys h.remotePublicKey
  if h.isInitiator then
    let signedPayload := signPayload h.staticKeys.privateKey
      (getHandshakePayload h.staticKeys.publicKey)
    let handshakePayload := createHandshakePayload h.staticKeys.publicKey
      signedPayload earlyData
    match xxSendMessage sess handshakePayload with
    | .error e => { result := .error e, conn := conn, trace := [], hs := h }
    | .ok (sess1, mb) =>
      let frame := encodeMessageBuffer mb
      { result := .ok sess1, conn := conn, trace := [WireOp.write frame], hs := h }
  else
    match conn with
    | [] => { result := .error .ConnectionEnded, conn := conn, trace := [], hs := h }
    | frame :: rest =>
      match decodeMessageBuffer frame with
      | none =>
        { result := .error .MalformedMessage, conn := rest,
          trace := [WireOp.read frame], hs := h }
      | some mb =>
        match xxRecvMessage sess mb with
        | .error e =>
          { result := .error e, conn := rest, trace := [WireOp.read frame], hs := h }
        | .ok (sess1, _plaintext) =>
          { result := .ok sess1, conn := rest, trace := [WireOp.read frame], hs := h }

/-- Stage 1 (`Handshake.exchange`): the initiator reads one frame and runs
the receive side, discarding the decrypted plaintext without inspecting it;
the responder builds its payload, passing `this.remotePublicKey` as the
identity key, runs message 1 and writes it. -/
def Handshake.exchange (h : Handshake) (conn : Conn) (sess : NoiseSession) :
    Outcome NoiseSession :=
  if h.isInitiator then
    match conn with
    | [] => { result := .error .ConnectionEnded, conn := conn, trace := [], hs := h }
    | frame :: rest =>
      match decodeMessageBuffer frame with
      | none =>
        { result := .error .MalformedMessage, conn := rest,
          trace := [WireOp.read frame], hs := h }
      | some mb =>
        match xxRecvMessage sess mb with
        | .error e =>
          { result := .error e, conn := rest, trace := [WireOp.read frame], hs := h }
        | .ok (sess1, _plaintext) =>
          { result := .ok sess1, conn := rest, trace := [WireOp.read frame], hs := h }
  else
    let signedPayload := signPayload h.staticKeys.privateKey
      (getHandshakePayload h.staticKeys.publicKey)
    let handshakePayload := createHandshakePayload h.remotePublicKey
      signedPayload none
    match xxSendMessage sess handshakePayload with
    | .error e => { result := .error e, conn := conn, trace := [], hs := h }
    | .ok (sess1, mb) =>
      let frame := encodeMessageBuffer mb
      { result := .ok sess1, conn := conn, trace := [WireOp.write frame], hs := h }

/-- Stage 2 (`Handshake.finish`): the initiator runs message 2 with the
payload `Buffer.alloc(0)`, the empty byte string, and writes it; the
responder reads one frame and runs the receive side, discarding the
decrypted plaintext. -/
def Handshake.finish (h : Handshake) (conn : Conn) (sess : NoiseSession) :
    Outcome NoiseSession :=
  if h.isInitiator then
    match xxSendMessage sess [] with
    | .error e => { result := .error e, conn := conn, trace := [], hs := h }
    | .ok (sess1, mb) =>
      let frame := encodeMessageBuffer mb
      { result := .ok sess1, conn := conn, trace := [WireOp.write frame], hs := h }
  else
    match conn with
    | [] => { result := .error .ConnectionEnded, conn := conn, trace := [], hs := h }
    | frame :: rest =>
      match decodeMessageBuffer frame with
      | none =>
        { result := .error .MalformedMessage, conn := rest,
          trace := [WireOp.read frame], hs := h }
      | some mb =>
        match xxRecvMessage sess mb with
        | .error e =>
          { result := .error e, conn := rest, trace := [WireOp.read frame], hs := h }
        | .ok (sess1, _plaintext) =>
          { result := .ok sess1, conn := rest, trace := [WireOp.read frame], hs := h }

/-- `Handshake.getCS`: fails when either cipher state is missing, otherwise
selects by role and direction exactly as the source does. -/
def Handshake.getCS (h : Handshake) (sess : NoiseSession)
    (encryption : Bool) : Except NoiseError CipherState :=
  match sess.cs1, sess.cs2 with
  | some c1, some c2 =>
    if h.isInitiator then (if encryption then .ok c1 else .ok c2)
    else (if encryption then .ok c2 else .ok c1)
  | _, _ => .error .HandshakeIncomplete

/-- Explicit-state rendering of the source's in-place nonce update: the
cipher state selected by `getCS` is written back to the same slot of the
session it was read from. -/
def Handshake.putCS (h : Handshake) (sess : NoiseSession)
    (encryption : Bool) (c : CipherState) : NoiseSession :=
  if h.isInitiator == encryption then { sess with cs1 := some c }
  else { sess with cs2 := some c }

/-- `Handshake.encrypt`: selects the sending cipher state via `getCS` and
encrypts with empty associated data; no transport operation is involved. -/
def Handshake.encrypt (h : Handshake) (conn : Conn) (plaintext : Bytes)
    (sess : NoiseSession) : Outcome (Bytes × NoiseSession) :=
  match Handshake.getCS h sess true with
  | .error e => { result := .error e, conn := conn, trace := [], hs := h }
  | .ok cs =>
    let r := encryptWithAd cs [] plaintext
    { result := .ok (r.2, Handshake.putCS h sess true r.1), conn := conn,
      trace := [], hs := h }

/-- `Handshake.decrypt`: selects the receiving cipher state via `getCS` and
decrypts with empty associated data; no transport operation is involved. -/
def Handshake.decrypt (h : Handshake) (conn : Conn) (ciphertext : Bytes)
    (sess : NoiseSession) : Outcome (Bytes × NoiseSession) :=
  match Handshake.getCS h sess false with
  | .error e => { result := .error e, conn := conn, trace := [], hs := h }
  | .ok cs =>
    match decryptWithAd cs [] ciphertext with
    | .error e => { result := .error e, conn := conn, trace := [], hs := h }
    | .ok (cs1, pt) =>
      { result := .ok (pt, Handshake.putCS h sess false cs1), conn := conn,
        trace := [], hs := h }

/-! ## A concrete honest run of the three stages

Initiator alice and responder bob, each running its own `Handshake` against
the frames the other side produced. -/

/-- Initiator static key pair of the concrete run. -/
def aliceKeys : KeyPair := { privateKey := [11], publicKey := pubOf [11] }

/-- Responder static key pair of the concrete run. -/
def bobKeys : KeyPair := { privateKey := [22], publicKey := pubOf [22] }

/-- Shared prologue of the concrete run. -/
def prologue0 : Bytes := [5]

/-- The initiator-side orchestrator. -/
def aliceH : Handshake :=
  ⟨HandshakeType.XX, true, bobKeys.publicKey, prologue0, aliceKeys⟩

/-- The responder-side orchestrator. -/
def bobH : Handshake :=
  ⟨HandshakeType.XX, false, aliceKeys.publicKey, prologue0, bobKeys⟩

/-- Fallback session used by the total extraction helpers. -/
def dSess : NoiseSession := xxInitSession true [] aliceKeys []

/-- Extracts the session from a successful outcome. -/
def sessOf (o : Outcome NoiseSession) : NoiseSession :=
  match o.result with
  | .ok s => s
  | .error _ => dSess

/-- Extracts the single written frame from an outcome's trace. -/
def sentOf (o : Outcome NoiseSession) : Bytes :=
  match o.trace with
  | [WireOp.write b] => b
  | _ => []

/-- Stage 0 on the initiator: writes the first frame. -/
def out0A : Outcome NoiseSession := Handshake.propose aliceH [] (some [42])

/-- The first frame on the wire. -/
def m0 : Bytes := sentOf out0A

/-- Initiator session after stage 0. -/
def sA1 : NoiseSession := sessOf out0A

/-- Stage 0 on the responder: reads the first frame. -/
def out0B : Outcome NoiseSession := Handshake.propose bobH [m0] none

/-- Responder session after stage 0. -/
def sB1 : NoiseSession := sessOf out0B

/-- Stage 1 on the responder: writes the second frame. -/
def out1B : Outcome NoiseSession := Handshake.exchange bobH [] sB1

/-- The second frame on the wire. -/
def m1 : Bytes := sentOf out1B

/-- Responder session after stage 1. -/
def sB2 : NoiseSession := sessOf out1B

/-- Stage 1 on the initiator: reads the second frame. -/
def out1A : Outcome NoiseSession := Handshake.exchange aliceH [m1] sA1

/-- Initiator session after stage 1. -/
def sA2 : NoiseSession := sessOf out1A

/-- Stage 2 on the initiator: writes the third frame. -/
def out2A : Outcome NoiseSession := Handshake.finish aliceH [] sA2

/-- The third frame on the wire. -/
def m2 : Bytes := sentOf out2A

/-- Initiator session after stage 2, cipher states split. -/
def sA3 : NoiseSession := sessOf out2A

/-- Stage 2 on the responder: reads the third frame. -/
def out2B : Outcome NoiseSession := Handshake.finish bobH [m2] sB2

/-- Responder session after stage 2, cipher states split. -/
def sB3 : NoiseSession := sessOf out2B

/-- The decoded second frame. -/
def mb1 : MessageBuffer :=
  match decodeMessageBuffer m1 with
  | some mb => mb
  | none => ⟨[], [], []⟩

/-- The handshake payload plaintext the initiator recovers from frame 2. -/
def pt1 : Bytes :=
  match xxRecvMessage sA1 mb1 with
  | .ok (_, pt) => pt
  | .error _ => []

/-- The parsed responder payload of frame 2. -/
def hp1 : HandshakePayload :=
  match parseHandshakePayload pt1 with
  | some hp => hp
  | none => ⟨[], [], none⟩

/-- The decoded third frame. -/
def mb2 : MessageBuffer :=
  match decodeMessageBuffer m2 with
  | some mb => mb
  | none => ⟨[], [], []⟩

/-- The handshake payload plaintext the responder recovers from frame 3:
a sentinel value is returned when the receive processing fails, so a result
equal to the empty string really is the decrypted stage-2 payload. -/
def pt2 : Bytes :=
  match xxRecvMessage sB2 mb2 with
  | .ok (_, pt) => pt
  | .error _ => [99]

/-- Boolean success test on method results. -/
def isOkE {α : Type} (e : Except NoiseError α) : Bool :=
  match e with
  | .ok _ => true
  | .error _ => false

end Noise

open Noise

/-- Reading a length-framed chunk undoes framing. -/
theorem readChunk_padLen (b r : Bytes) : readChunk (padLen b ++ r) = some (b, r) := by
  simp [readChunk, padLen]

/-- Decoding a message buffer undoes encoding. -/
theorem decode_encode (mb : MessageBuffer) :
    decodeMessageBuffer (encodeMessageBuffer mb) = some mb := by
  have h1 := readChunk_padLen mb.ephemeralPublicKey
    (padLen mb.encryptedStaticPublicKey ++ padLen mb.ciphertext)
  have h2 := readChunk_padLen mb.encryptedStaticPublicKey (padLen mb.ciphertext)
  have h3 := readChunk_padLen mb.ciphertext []
  simp only [encodeMessageBuffer, List.append_assoc] at h1 ⊢
  simp only [List.append_nil] at h3
  simp [decodeMessageBuffer, h1, h2, h3]

/-- The toy AEAD ciphertext drops back to its plaintext. -/
theorem dropLast_aeadEnc (k : Bytes) (n : Nat) (ad pt : Bytes) :
    (aeadEnc k n ad pt).dropLast = pt := by
  simp [aeadEnc]

/-- C1: the claim fails on the code.  In the concrete honest run, the
initiator's `finish` writes one frame, and the stage-2 handshake payload the
responder's receive processing recovers from that frame is the empty byte
string (the sentinel-guarded `pt2`), which does not even parse as a
handshake payload — `finish` passes the empty buffer to message 3 instead of
a signed identity payload. -/
theorem C1_finish_sends_empty_payload :
    out2A.trace = [WireOp.write m2] ∧
    pt2 = [] ∧
    parseHandshakePayload [] = none := by
  refine ⟨by decide, by decide, by decide⟩

/-- C2: the claim fails on the code.  In the concrete honest run, the
payload the responder builds in `exchange` (recovered by the initiator from
frame 2) embeds the responder's `remotePublicKey` — the initiator's static
key — rather than the responder's own static public key. -/
theorem C2_responder_payload_embeds_remote_key :
    parseHandshakePayload pt1 = some hp1 ∧
    hp1.identityPublicKey = bobH.remotePublicKey ∧
    hp1.identityPublicKey ≠ bobH.staticKeys.publicKey := by
  refine ⟨by decide, by decide, by decide⟩

/-- C3: the claim fails on the code.  In the concrete honest run the
signature embedded in the message 2 payload does not verify against the
embedded identity key, yet the initiator's `exchange` succeeds: the code
discards the decrypted payload without any signature check and never raises
`SignatureVerificationFailure`. -/
theorem C3_exchange_skips_signature_verification :
    verifyPayload hp1 = false ∧
    (Handshake.exchange aliceH [m1] sA1).result = Except.ok sA2 := by
  refine ⟨by decide, by decide⟩

/-- Selection fails with `HandshakeIncomplete` when either cipher state of
the session is missing. -/
theorem getCS_incomplete (h : Handshake) (sess : NoiseSession) (e : Bool)
    (hcs : sess.cs1 = none ∨ sess.cs2 = none) :
    Handshake.getCS h sess e = .error .HandshakeIncomplete := by
  cases h1 : sess.cs1 <;> cases h2 : sess.cs2 <;>
    simp_all [Handshake.getCS]

/-- C4: for every session in which `cs1` or `cs2` is not populated, both
`encrypt` and `decrypt` fail deterministically with the handshake-incomplete
error and perform no cipher operation. -/
theorem C4_incomplete_session_errors (h : Handshake) (conn : Conn)
    (sess : NoiseSession) (pt ct : Bytes)
    (hcs : sess.cs1 = none ∨ sess.cs2 = none) :
    (Handshake.encrypt h conn pt sess).result = .error .HandshakeIncomplete ∧
    (Handshake.decrypt h conn ct sess).result = .error .HandshakeIncomplete := by
  constructor
  · simp [Handshake.encrypt, getCS_incomplete h sess true hcs]
  · simp [Handshake.decrypt, getCS_incomplete h sess false hcs]

/-- Witness for C4 on the fresh session of the concrete run, whose cipher
states are not yet populated. -/
theorem C4_incomplete_session_errors_witness :
    (sA1.cs1 = none ∨ sA1.cs2 = none) ∧
    (Handshake.encrypt aliceH [] [1, 2] sA1).result = .error .HandshakeIncomplete ∧
    (Handshake.decrypt aliceH [] [3, 4] sA1).result = .error .HandshakeIncomplete :=
  ⟨Or.inl (by decide),
   (C4_incomplete_session_errors aliceH [] sA1 [1, 2] [3, 4] (Or.inl (by decide))).1,
   (C4_incomplete_session_errors aliceH [] sA1 [1, 2] [3, 4] (Or.inl (by decide))).2⟩

/-- Selection succeeds on a completed session and picks by role and
direction. -/
theorem getCS_complete (h : Handshake) (sess : NoiseSession)
    (c1 c2 : CipherState) (h1 : sess.cs1 = some c1) (h2 : sess.cs2 = some c2) :
    Handshake.getCS h sess true = .ok (if h.isInitiator then c1 else c2) ∧
    Handshake.getCS h sess false = .ok (if h.isInitiator then c2 else c1) := by
  cases hI : h.isInitiator <;> simp [Handshake.getCS, h1, h2, hI]

/-- C5: on a completed session, `encrypt` uses `cs1` for the initiator and
`cs2` for the responder, and `decrypt` the complementary state, both via
`getCS`. -/
theorem C5_cipher_state_selection (h : Handshake) (conn : Conn)
    (sess : NoiseSession) (pt ct : Bytes) (c1 c2 : CipherState)
    (h1 : sess.cs1 = some c1) (h2 : sess.cs2 = some c2) :
    Handshake.getCS h sess true = .ok (if h.isInitiator then c1 else c2) ∧
    Handshake.getCS h sess false = .ok (if h.isInitiator then c2 else c1) ∧
    (Handshake.encrypt h conn pt sess).result =
      .ok ((encryptWithAd (if h.isInitiator then c1 else c2) [] pt).2,
        Handshake.putCS h sess true
          (encryptWithAd (if h.isInitiator then c1 else c2) [] pt).1) ∧
    (Handshake.decrypt h conn ct sess).result =
      Except.map (fun r => (r.2, Handshake.putCS h sess false r.1))
        (decryptWithAd (if h.isInitiator then c2 else c1) [] ct) := by
  obtain ⟨hg1, hg2⟩ := getCS_complete h sess c1 c2 h1 h2
  refine ⟨hg1, hg2, ?_, ?_⟩
  · simp [Handshake.encrypt, hg1]
  · rcases hd : decryptWithAd (if h.isInitiator then c2 else c1) [] ct with e | p <;>
      simp [Handshake.decrypt, hg2, hd, Except.map]

/-- The cipher state returned by the first run of the concrete session. -/
def cW1 : CipherState := sA3.cs1.getD ⟨none, 0⟩

/-- The second cipher state of the concrete completed session. -/
def cW2 : CipherState := sA3.cs2.getD ⟨none, 0⟩

/-- Witness for C5 on the concrete completed initiator session. -/
theorem C5_cipher_state_selection_witness :
    sA3.cs1 = some cW1 ∧ sA3.cs2 = some cW2 ∧
    Handshake.getCS aliceH sA3 true = .ok (if aliceH.isInitiator then cW1 else cW2) ∧
    Handshake.getCS aliceH sA3 false = .ok (if aliceH.isInitiator then cW2 else cW1) :=
  ⟨by decide, by decide,
   (C5_cipher_state_selection aliceH [] sA3 [1] [2] cW1 cW2 (by decide) (by decide)).1,
   (C5_cipher_state_selection aliceH [] sA3 [1] [2] cW1 cW2 (by decide) (by decide)).2.1⟩

/-- Symmetric encryption preserves the cipher key. -/
theorem encryptWithAd_key (cs : CipherState) (ad pt : Bytes) :
    (encryptWithAd cs ad pt).1.k = cs.k := by
  cases hk : cs.k <;> simp [encryptWithAd, hk]

/-- Symmetric decryption either bumps the nonce of the same cipher state or
fails with an authentication error. -/
theorem decryptWithAd_cases (cs : CipherState) (ad ct : Bytes) :
    (∃ pt, decryptWithAd cs ad ct = .ok ({ cs with n := cs.n + 1 }, pt)) ∨
    decryptWithAd cs ad ct = .error .AuthenticationFailure := by
  cases hk : cs.k with
  | none => exact Or.inl ⟨ct, by unfold decryptWithAd; rw [hk]⟩
  | some k =>
    have hred : decryptWithAd cs ad ct =
        match aeadDec k cs.n ad ct with
        | none => .error .AuthenticationFailure
        | some pt => .ok ({ k := some k, n := cs.n + 1 }, pt) := by
      unfold decryptWithAd
      rw [hk]
    rw [hred]
    cases aeadDec k cs.n ad ct with
    | none => exact Or.inr rfl
    | some p => exact Or.inl ⟨p, rfl⟩

/-- Symmetric decryption preserves the cipher key when it succeeds. -/
theorem decryptWithAd_key (cs : CipherState) (ad ct : Bytes)
    (cs1 : CipherState) (pt : Bytes)
    (hok : decryptWithAd cs ad ct = .ok (cs1, pt)) : cs1.k = cs.k := by
  rcases decryptWithAd_cases cs ad ct with ⟨p, hp⟩ | he
  · rw [hp] at hok
    have h1 : ({ cs with n := cs.n + 1 } : CipherState) = cs1 :=
      congrArg Prod.fst (Except.ok.inj hok)
    rw [← h1]
  · rw [he] at hok
    cases hok

/-- C8: `encrypt` and `decrypt` perform no transport operation and leave the
connection untouched, and on success the resulting session keeps both cipher
state slots with their keys: only the selected state's counter may change,
the complementary slot is returned as it was. -/
theorem C8_encrypt_decrypt_no_io (h : Handshake) (conn : Conn)
    (pt ct : Bytes) (sess : NoiseSession) :
    (Handshake.encrypt h conn pt sess).conn = conn ∧
    (Handshake.encrypt h conn pt sess).trace = [] ∧
    (Handshake.decrypt h conn ct sess).conn = conn ∧
    (Handshake.decrypt h conn ct sess).trace = [] ∧
    (∀ r s1, (Handshake.encrypt h conn pt sess).result = .ok (r, s1) →
      Option.map CipherState.k s1.cs1 = Option.map CipherState.k sess.cs1 ∧
      Option.map CipherState.k s1.cs2 = Option.map CipherState.k sess.cs2 ∧
      (s1.cs1 = sess.cs1 ∨ s1.cs2 = sess.cs2)) ∧
    (∀ r s1, (Handshake.decrypt h conn ct sess).result = .ok (r, s1) →
      Option.map CipherState.k s1.cs1 = Option.map CipherState.k sess.cs1 ∧
      Option.map CipherState.k s1.cs2 = Option.map CipherState.k sess.cs2 ∧
      (s1.cs1 = sess.cs1 ∨ s1.cs2 = sess.cs2)) := by
  refine ⟨?_, ?_, ?_, ?_, ?_, ?_⟩
  · unfold Handshake.encrypt
    (repeat' split) <;> rfl
  · unfold Handshake.encrypt
    (repeat' split) <;> rfl
  · unfold Handshake.decrypt
    (repeat' split) <;> rfl
  · unfold Handshake.decrypt
    (repeat' split) <;> rfl
  · intro r s1 hok
    rcases h1 : sess.cs1 with _ | c1 <;> rcases h2 : sess.cs2 with _ | c2 <;>
      cases hI : h.isInitiator <;>
      simp [Handshake.encrypt, Handshake.getCS, Handshake.putCS, h1, h2, hI]
        at hok ⊢ <;>
      obtain ⟨hr, hs⟩ := hok <;> subst hs <;>
      simp [h1, h2, encryptWithAd_key]
  · intro r s1 hok
    rcases h1 : sess.cs1 with _ | c1 <;> rcases h2 : sess.cs2 with _ | c2 <;>
      cases hI : h.isInitiator <;>
      simp [Handshake.decrypt, Handshake.getCS, Handshake.putCS, h1, h2, hI]
        at hok ⊢
    · rcases decryptWithAd_cases c1 [] ct with ⟨p, hp⟩ | hp <;> rw [hp] at hok <;>
        simp at hok
      obtain ⟨hr, hs⟩ := hok
      subst hs
      simp [h1, h2]
    · rcases decryptWithAd_cases c2 [] ct with ⟨p, hp⟩ | hp <;> rw [hp] at hok <;>
        simp at hok
      obtain ⟨hr, hs⟩ := hok
      subst hs
      simp [h1, h2]

/-- C9: no method of the orchestrator changes the fields of the `Handshake`
record itself: every path of every method returns it unchanged. -/
theorem C9_no_field_mutation (h : Handshake) (conn : Conn) (ed : Option Bytes)
    (sess : NoiseSession) (pt ct : Bytes) :
    (Handshake.propose h conn ed).hs = h ∧
    (Handshake.exchange h conn sess).hs = h ∧
    (Handshake.finish h conn sess).hs = h ∧
    (Handshake.encrypt h conn pt sess).hs = h ∧
    (Handshake.decrypt h conn ct sess).hs = h := by
  refine ⟨?_, ?_, ?_, ?_, ?_⟩
  · unfold Handshake.propose
    repeat' (first | split | dsimp only)
  · unfold Handshake.exchange
    repeat' (first | split | dsimp only)
  · unfold Handshake.finish
    repeat' (first | split | dsimp only)
  · unfold Handshake.encrypt
    repeat' (first | split | dsimp only)
  · unfold Handshake.decrypt
    repeat' (first | split | dsimp only)

/-- C10: the responder branch of `propose` never looks at `earlyData`: the
whole outcome is the same for any two early-data values, and it writes
nothing. -/
theorem C10_responder_ignores_early_data (h : Handshake) (conn : Conn)
    (ed1 ed2 : Option Bytes) (hr : h.isInitiator = false) :
    Handshake.propose h conn ed1 = Handshake.propose h conn ed2 ∧
    ∀ b, WireOp.write b ∉ (Handshake.propose h conn ed1).trace := by
  constructor
  · unfold Handshake.propose
    rw [hr]
    simp
  · intro b
    unfold Handshake.propose
    rw [hr]
    simp only [Bool.false_eq_true, if_false]
    (repeat' split) <;> simp

/-- Witness for C10 at the concrete responder and the first wire frame. -/
theorem C10_responder_ignores_early_data_witness :
    Handshake.propose bobH [m0] (some [42]) = Handshake.propose bobH [m0] none ∧
    ∀ b, WireOp.write b ∉ (Handshake.propose bobH [m0] (some [42])).trace :=
  ⟨(C10_responder_ignores_early_data bobH [m0] (some [42]) none (by decide)).1,
   (C10_responder_ignores_early_data bobH [m0] (some [42]) none (by decide)).2⟩

/-- C6: each stage method performs exactly one framed transport operation
when it succeeds: the initiator writes in `propose` and `finish` and reads in
`exchange`; the responder reads in `propose` and `finish` and writes in
`exchange`. -/
theorem C6_one_wire_op_per_stage (h : Handshake) (conn : Conn)
    (ed : Option Bytes) (s1 s2 : NoiseSession) :
    (isOkE (Handshake.propose h conn ed).result = true →
      if h.isInitiator then
        ∃ b, (Handshake.propose h conn ed).trace = [WireOp.write b]
      else
        ∃ b, (Handshake.propose h conn ed).trace = [WireOp.read b]) ∧
    (isOkE (Handshake.exchange h conn s1).result = true →
      if h.isInitiator then
        ∃ b, (Handshake.exchange h conn s1).trace = [WireOp.read b]
      else
        ∃ b, (Handshake.exchange h conn s1).trace = [WireOp.write b]) ∧
    (isOkE (Handshake.finish h conn s2).result = true →
      if h.isInitiator then
        ∃ b, (Handshake.finish h conn s2).trace = [WireOp.write b]
      else
        ∃ b, (Handshake.finish h conn s2).trace = [WireOp.read b]) := by
  refine ⟨?_, ?_, ?_⟩
  · cases hI : h.isInitiator <;>
      unfold Handshake.propose <;>
      simp only [hI] <;>
      (repeat' (first | split | dsimp only)) <;>
      simp_all [isOkE]
  · cases hI : h.isInitiator <;>
      unfold Handshake.exchange <;>
      simp only [hI] <;>
      (repeat' (first | split | dsimp only)) <;>
      simp_all [isOkE]
  · cases hI : h.isInitiator <;>
      unfold Handshake.finish <;>
      simp only [hI] <;>
      (repeat' (first | split | dsimp only)) <;>
      simp_all [isOkE]

/-- Witness for C6 at the three successful stage calls of the concrete
initiator together with the responder stage-1 call. -/
theorem C6_one_wire_op_per_stage_witness :
    (if aliceH.isInitiator then
      ∃ b, (Handshake.propose aliceH [] (some [42])).trace = [WireOp.write b]
    else
      ∃ b, (Handshake.propose aliceH [] (some [42])).trace = [WireOp.read b]) ∧
    (if bobH.isInitiator then
      ∃ b, (Handshake.exchange bobH [] sB1).trace = [WireOp.read b]
    else
      ∃ b, (Handshake.exchange bobH [] sB1).trace = [WireOp.write b]) :=
  ⟨(C6_one_wire_op_per_stage aliceH [] (some [42]) dSess dSess).1 (by decide),
   (C6_one_wire_op_per_stage bobH [] none sB1 dSess).2.1 (by decide)⟩

/-- A stage-1 send always succeeds and its payload ciphertext strips back to
the payload under the toy AEAD. -/
theorem xxSendMessage_stage1 (sess : NoiseSession) (payload : Bytes)
    (hmc : sess.mc = 1) :
    ∃ sess1 encS ctv,
      xxSendMessage sess payload =
        .ok (sess1, ⟨genEphemeral.publicKey, encS, ctv⟩) ∧
      ctv.dropLast = payload := by
  unfold xxSendMessage
  rw [hmc]
  refine ⟨_, _, _, rfl, ?_⟩
  simp [encryptAndHash, mixKey, Noise.mixHash, hkdf, dropLast_aeadEnc]

/-- A stage-0 send keeps the session's role, static keys and remote static
key. -/
theorem xxSendMessage_stage0_fields (sess : NoiseSession) (payload : Bytes)
    (sess1 : NoiseSession) (mb : MessageBuffer) (hmc : sess.mc = 0)
    (hok : xxSendMessage sess payload = .ok (sess1, mb)) :
    sess1.isInitiator = sess.isInitiator ∧ sess1.hs.s = sess.hs.s ∧
    sess1.hs.rs = sess.hs.rs := by
  unfold xxSendMessage at hok
  rw [hmc] at hok
  have h1 : _ = sess1 := congrArg Prod.fst (Except.ok.inj hok)
  rw [← h1]
  exact ⟨rfl, rfl, rfl⟩

/-- A successful stage-0 receive keeps the session's role, static keys and
remote static key. -/
theorem xxRecvMessage_stage0_fields (sess : NoiseSession) (mb : MessageBuffer)
    (sess1 : NoiseSession) (pt : Bytes) (hmc : sess.mc = 0)
    (hok : xxRecvMessage sess mb = .ok (sess1, pt)) :
    sess1.isInitiator = sess.isInitiator ∧ sess1.hs.s = sess.hs.s ∧
    sess1.hs.rs = sess.hs.rs := by
  unfold xxRecvMessage at hok
  rw [hmc] at hok
  dsimp only at hok
  rcases hd : decryptAndHash (Noise.mixHash sess.hs.ss mb.ephemeralPublicKey)
      mb.ciphertext with er | p
  · rw [hd] at hok
    exact Except.noConfusion hok
  · rw [hd] at hok
    have h1 : _ = sess1 := congrArg Prod.fst (Except.ok.inj hok)
    rw [← h1]
    exact ⟨rfl, rfl, rfl⟩

/-- C7: wherever a peer signs a handshake payload (initiator in `propose`,
responder in `exchange`), the message signed is the domain-separated
encoding of that peer's own static public key, signed with that peer's own
static private key; and `propose` returns the session it created for both
roles. -/
theorem C7_sign_own_static_key (h : Handshake) (conn : Conn) (ed : Option Bytes)
    (sess : NoiseSession) :
    (h.isInitiator = true →
      ∃ w mb, (Handshake.propose h conn ed).trace = [WireOp.write w] ∧
        decodeMessageBuffer w = some mb ∧
        mb.ciphertext = createHandshakePayload h.staticKeys.publicKey
          (sigSign h.staticKeys.privateKey (domainSep ++ h.staticKeys.publicKey)) ed) ∧
    (h.isInitiator = false → sess.mc = 1 →
      ∃ w mb, (Handshake.exchange h conn sess).trace = [WireOp.write w] ∧
        decodeMessageBuffer w = some mb ∧
        mb.ciphertext.dropLast = createHandshakePayload h.remotePublicKey
          (sigSign h.staticKeys.privateKey (domainSep ++ h.staticKeys.publicKey)) none) ∧
    (isOkE (Handshake.propose h conn ed).result = true →
      ∃ ns, (Handshake.propose h conn ed).result = .ok ns ∧
        ns.isInitiator = h.isInitiator ∧ ns.hs.s = h.staticKeys ∧
        ns.hs.rs = h.remotePublicKey) := by
  refine ⟨?_, ?_, ?_⟩
  · intro hI
    have htrace : (Handshake.propose h conn ed).trace =
        [WireOp.write (encodeMessageBuffer ⟨genEphemeral.publicKey, [],
          createHandshakePayload h.staticKeys.publicKey
            (sigSign h.staticKeys.privateKey
              (domainSep ++ h.staticKeys.publicKey)) ed⟩)] := by
      unfold Handshake.propose
      rw [if_pos hI]
      rfl
    exact ⟨_, _, htrace, decode_encode _, rfl⟩
  · intro hI hmc
    obtain ⟨sess1, encS, ctv, hsend, hdrop⟩ := xxSendMessage_stage1 sess
      (createHandshakePayload h.remotePublicKey
        (signPayload h.staticKeys.privateKey
          (getHandshakePayload h.staticKeys.publicKey)) none) hmc
    have htrace : (Handshake.exchange h conn sess).trace =
        [WireOp.write (encodeMessageBuffer ⟨genEphemeral.publicKey, encS, ctv⟩)] := by
      unfold Handshake.exchange
      rw [if_neg (by simp [hI])]
      dsimp only
      rw [hsend]
    exact ⟨_, _, htrace, decode_encode _, hdrop⟩
  · intro hok
    cases hI : h.isInitiator
    · cases conn with
      | nil =>
        have hres : (Handshake.propose h [] ed).result = .error .ConnectionEnded := by
          unfold Handshake.propose
          rw [if_neg (by simp [hI])]
        rw [hres] at hok
        simp [isOkE] at hok
      | cons frame rest =>
        rcases hdec : decodeMessageBuffer frame with _ | mb
        · have hres : (Handshake.propose h (frame :: rest) ed).result =
              .error .MalformedMessage := by
            unfold Handshake.propose
            rw [if_neg (by simp [hI])]
            dsimp only
            rw [hdec]
          rw [hres] at hok
          simp [isOkE] at hok
        · rcases hrecv : xxRecvMessage
              (xxInitSession h.isInitiator h.prologue h.staticKeys
                h.remotePublicKey) mb with er | p
          · have hres : (Handshake.propose h (frame :: rest) ed).result =
                .error er := by
              unfold Handshake.propose
              rw [if_neg (by simp [hI])]
              dsimp only
              rw [hdec]
              dsimp only
              rw [hrecv]
            rw [hres] at hok
            simp [isOkE] at hok
          · have hres : (Handshake.propose h (frame :: rest) ed).result =
                .ok p.1 := by
              unfold Handshake.propose
              rw [if_neg (by simp [hI])]
              dsimp only
              rw [hdec]
              dsimp only
              rw [hrecv]
            have hf := xxRecvMessage_stage0_fields _ mb p.1 p.2 rfl
              (by rw [hrecv])
            rw [hI] at hf
            exact ⟨p.1, hres, hf.1, hf.2.1, hf.2.2⟩
    · rcases hsend : xxSendMessage
          (xxInitSession h.isInitiator h.prologue h.staticKeys h.remotePublicKey)
          (createHandshakePayload h.staticKeys.publicKey
            (signPayload h.staticKeys.privateKey
              (getHandshakePayload h.staticKeys.publicKey)) ed) with er | p
      · have hres : (Handshake.propose h conn ed).result = .error er := by
          unfold Handshake.propose
          rw [if_pos hI]
          dsimp only
          rw [hsend]
        rw [hres] at hok
        simp [isOkE] at hok
      · have hres : (Handshake.propose h conn ed).result = .ok p.1 := by
          unfold Handshake.propose
          rw [if_pos hI]
          dsimp only
          rw [hsend]
        have hf := xxSendMessage_stage0_fields _ _ p.1 p.2 rfl (by rw [hsend])
        rw [hI] at hf
        exact ⟨p.1, hres, hf.1, hf.2.1, hf.2.2⟩

/-- Witness for C7 at the concrete initiator propose, responder exchange,
and responder propose. -/
theorem C7_sign_own_static_key_witness :
    (∃ w mb, (Handshake.propose aliceH [] (some [42])).trace = [WireOp.write w] ∧
      decodeMessageBuffer w = some mb ∧
      mb.ciphertext = createHandshakePayload aliceH.staticKeys.publicKey
        (sigSign aliceH.staticKeys.privateKey
          (domainSep ++ aliceH.staticKeys.publicKey)) (some [42])) ∧
    (∃ w mb, (Handshake.exchange bobH [] sB1).trace = [WireOp.write w] ∧
      decodeMessageBuffer w = some mb ∧
      mb.ciphertext.dropLast = createHandshakePayload bobH.remotePublicKey
        (sigSign bobH.staticKeys.privateKey
          (domainSep ++ bobH.staticKeys.publicKey)) none) ∧
    (∃ ns, (Handshake.propose bobH [m0] none).result = .ok ns ∧
      ns.isInitiator = bobH.isInitiator ∧ ns.hs.s = bobH.staticKeys ∧
      ns.hs.rs = bobH.remotePublicKey) :=
  ⟨(C7_sign_own_static_key aliceH [] (some [42]) dSess).1 (by decide),
   (C7_sign_own_static_key bobH [] none sB1).2.1 (by decide) (by decide),
   (C7_sign_own_static_key bobH [m0] none dSess).2.2 (by decide)⟩

/-- Outcome of a concrete post-handshake encryption on the completed
session. -/
def encA3 : Outcome (Bytes × NoiseSession) :=
  Handshake.encrypt aliceH [] [1, 2, 3] sA3

/-- Ciphertext produced by the concrete encryption. -/
def rA3 : Bytes :=
  match encA3.result with
  | .ok (r, _) => r
  | .error _ => []

/-- Session returned by the concrete encryption. -/
def s1A3 : NoiseSession :=
  match encA3.result with
  | .ok (_, s) => s
  | .error _ => dSess

/-- Witness for C8 at the concrete completed initiator session. -/
theorem C8_encrypt_decrypt_no_io_witness :
    encA3.conn = [] ∧ encA3.trace = [] ∧
    Option.map CipherState.k s1A3.cs1 = Option.map CipherState.k sA3.cs1 ∧
    Option.map CipherState.k s1A3.cs2 = Option.map CipherState.k sA3.cs2 ∧
    (s1A3.cs1 = sA3.cs1 ∨ s1A3.cs2 = sA3.cs2) :=
  have hm := C8_encrypt_decrypt_no_io aliceH [] [1, 2, 3] [9] sA3
  have hk := hm.2.2.2.2.1 rA3 s1A3 (by decide)
  ⟨hm.1, hm.2.1, hk.1, hk.2.1, hk.2.2⟩
